import Mathlib

/-!
Verification development for the terralink backend core
(Sync Cache `tabulaService.getFieldMaps`, Sync Scheduler `sync`,
Order Monitor `checkForNewOrders`, Notification Decision Engine
`shouldNotify` / `getRecipients`).

The JavaScript source is shallowly embedded: every stateful operation is a
pure function from its explicit pre-state and the responses of the upstream
HTTP oracle to its result and post-state.  JavaScript objects used as
keyed dictionaries are embedded as insertion-ordered association lists
(matching JS property-insertion order and `Map` semantics), JS `a || b`
defaulting chains are embedded by helpers that treat `none`, `""` and `0`
as falsy, and thrown exceptions are `Except.error`.
-/

/-- JS `a || b` for a possibly-absent string field: `none` (undefined/null)
and `""` are falsy. -/
def sOr (a : Option String) (b : String) : String :=
  match a with
  | some s => if s = "" then b else s
  | none => b

/-- JS `a || b` for a possibly-absent numeric field: `none` and `0` are falsy. -/
def nOr (a : Option Nat) (b : Nat) : Nat :=
  match a with
  | some n => if n = 0 then b else n
  | none => b

/-- A job summary as returned by the upstream modified-list call
(`GET /accounts/:id/jobs?include_deleted=true&from_date=...`).
Only the fields the embedded code reads are carried. -/
structure Job where
  id : Nat
  block_name : Option String := none
  order_name : Option String := none
  customer : Option String := none
  area : Option Nat := none
  gross_coverage_area : Option Nat := none
  status : String := ""
  order_number : Option String := none
  requested_url : Option String := none
  worked_url : Option String := none
  modified_date : String := ""
  due_date : Option String := none
  product_list : Option String := none
  address : Option String := none
  notes : Option String := none
  deleted : Bool := false
deriving Repr, DecidableEq

/-- A job detail record as returned by the upstream per-job call and stored
verbatim in `jobDetailsCache` (`detailResponse.data`).  `contractorCap`,
`prodDupli`, `color` and `rts` embed the JS fields `Contractor`,
`'prod dupli'`, `Color` and `RTS`. -/
structure JobDetail where
  modified_date : String := ""
  contractor : Option String := none
  contractorCap : Option String := none
  prodDupli : Option String := none
  color : Option String := none
  product_list : Option String := none
  address : Option String := none
  notes : Option String := none
  rts : Bool := false
deriving Repr, DecidableEq

/-- The transformed record produced by `transformJobsToFieldMaps`. -/
structure FieldMap where
  id : Nat
  name : String
  customer : String
  contractor : String
  area : Nat
  status : String
  orderNumber : String
  requestedUrl : Option String
  workedUrl : Option String
  modifiedDate : String
  dueDate : Option String
  productList : String
  prodDupli : String
  color : String
  address : String
  notes : String
  deleted : Bool
  rts : Bool
deriving Repr, DecidableEq

/-- Insertion-ordered association list lookup (`obj[k]`, `map.get(k)`). -/
def alistLookup {α : Type} (l : List (Nat × α)) (k : Nat) : Option α :=
  (l.find? (fun p => decide (p.1 = k))).map (fun p => p.2)

/-- Insertion-ordered association list update (`obj[k] = v`, `map.set(k, v)`):
an existing key keeps its position, a new key is appended. -/
def alistInsert {α : Type} (l : List (Nat × α)) (k : Nat) (v : α) : List (Nat × α) :=
  match l with
  | [] => [(k, v)]
  | p :: rest => if p.1 = k then (k, v) :: rest else p :: alistInsert rest k v

/-- Association list deletion (`delete obj[k]`, `map.delete(k)`). -/
def alistErase {α : Type} (l : List (Nat × α)) (k : Nat) : List (Nat × α) :=
  l.filter (fun p => decide (p.1 ≠ k))

/-- One body of the transform loop in `transformJobsToFieldMaps`. -/
def transformJob (job : Job) (details : Option JobDetail) : FieldMap :=
  { id := job.id
  , name := sOr job.block_name (sOr job.order_name ("Job " ++ toString job.id))
  , customer := sOr job.customer "No Customer"
  , contractor :=
      match details with
      | some d => sOr d.contractor (sOr d.contractorCap "")
      | none => ""
  , area := nOr job.area (nOr job.gross_coverage_area 0)
  , status := job.status
  , orderNumber := sOr job.order_number ""
  , requestedUrl := job.requested_url
  , workedUrl := job.worked_url
  , modifiedDate := job.modified_date
  , dueDate := job.due_date
  , productList := sOr (details.bind (fun d => d.product_list)) (sOr job.product_list "")
  , prodDupli := sOr (details.bind (fun d => d.prodDupli)) ""
  , color := sOr (details.bind (fun d => d.color)) ""
  , address := sOr (details.bind (fun d => d.address)) (sOr job.address "")
  , notes := sOr (details.bind (fun d => d.notes)) (sOr job.notes "")
  , deleted := job.deleted
  , rts := match details with | some d => d.rts | none => false }

/-- `transformJobsToFieldMaps(jobs, detailsCache)` from `tabulaService.js`. -/
def transformJobsToFieldMaps (jobs : List Job) (detailsCache : List (Nat × JobDetail)) :
    List FieldMap :=
  jobs.map (fun job => transformJob job (alistLookup detailsCache job.id))

/-- The per-account entry of `this.fieldMapsCache`.  Times are epoch
milliseconds (`Int`, since `lastSyncDate` is computed by subtraction). -/
structure Cache where
  timestamp : Int
  lastSyncDate : Int
  fullJobList : List Job
  jobDetailsCache : List (Nat × JobDetail)
deriving Repr, DecidableEq

/-- `this.cacheExpiry = 5 * 60 * 1000`. -/
def cacheExpiry : Int := 5 * 60 * 1000

/-- `this.fromDateOverlap = 5 * 60 * 1000`. -/
def fromDateOverlap : Int := 5 * 60 * 1000

/-- Lazy cache initialization performed at the top of `getFieldMaps` when no
entry exists for the account (timestamp `now`, `lastSyncDate` 90 days back,
empty job list and detail cache). -/
def initCache (now : Int) : Cache :=
  { timestamp := now
  , lastSyncDate := now - 90 * 24 * 60 * 60 * 1000
  , fullJobList := []
  , jobDetailsCache := [] }

/-- The account's cache entry after the lazy-initialization step. -/
def ensureCache (st : Option Cache) (now : Int) : Cache :=
  match st with
  | some c => c
  | none => initCache now

/-- The staleness test of the detail-fetch loop: fetch unless a cached detail
exists whose `modified_date` equals the modified-list entry's. -/
def needsUpdate (detailsCache : List (Nat × JobDetail)) (job : Job) : Bool :=
  match alistLookup detailsCache job.id with
  | none => true
  | some d => decide (d.modified_date ≠ job.modified_date)

/-- The detail-fetch fan-out: each fetched `jobsNeedingDetails` entry writes
its response into the detail cache; a failed fetch leaves the cache alone
(the promise resolves to a logged failure marker).  The parallel batch is
linearized in list order; writes target pairwise-distinct keys in the
intended use. -/
def fetchDetails (detailResp : Nat → Except String JobDetail)
    (jobs : List Job) (detailsCache : List (Nat × JobDetail)) :
    List (Nat × JobDetail) :=
  jobs.foldl
    (fun acc job =>
      match detailResp job.id with
      | Except.ok d => alistInsert acc job.id d
      | Except.error _ => acc)
    detailsCache

/-- One iteration of the merge loop of `getFieldMaps`: a deleted modified job
is removed from both the job map and the detail cache, any other modified
job is inserted or replaced in the job map keyed by its id. -/
def mergeStep (acc : List (Nat × Job) × List (Nat × JobDetail)) (j : Job) :
    List (Nat × Job) × List (Nat × JobDetail) :=
  if j.deleted then (alistErase acc.1 j.id, alistErase acc.2 j.id)
  else (alistInsert acc.1 j.id j, acc.2)

/-- `new Map(cache.fullJobList.map(job => [job.id, job]))`. -/
def buildJobMap (jobs : List Job) : List (Nat × Job) :=
  jobs.foldl (fun m j => alistInsert m j.id j) []

/-- The merge phase of `getFieldMaps`: fold the modified list over the job
map built from the previous full job list, producing the new full job list
(`Array.from(jobMap.values())`) and the updated detail cache. -/
def mergeJobs (fullJobList : List Job) (detailsCache : List (Nat × JobDetail))
    (modifiedJobs : List Job) : List Job × List (Nat × JobDetail) :=
  let m := modifiedJobs.foldl mergeStep (buildJobMap fullJobList, detailsCache)
  (m.1.map (fun p => p.2), m.2)

/-- Result of one `getFieldMaps` call: the returned value (or the propagated
error), the account's cache entry afterwards, and the ids for which a
per-job detail fetch was issued. -/
structure RefreshOut where
  result : Except String (List FieldMap)
  state : Option Cache
  detailFetches : List Nat
deriving Repr

/-- The `cacheValid` flag of `getFieldMaps`, computed from the
pre-initialization cache entry: an entry exists and is younger than
`cacheExpiry`. -/
def cacheValidOf (st : Option Cache) (now : Int) : Bool :=
  match st with
  | some c => decide (now - c.timestamp < cacheExpiry)
  | none => false

/-- `tabulaService.getFieldMaps` for one account, as a pure function of the
account's prior cache entry `st`, the current time `now`, the upstream
modified-list response `listResp`, and the upstream per-job detail
responses `detailResp`.  Follows the source: lazy init, `cacheValid`
computed from the pre-existing entry, modified-list call, empty-list
short-circuit, staleness-filtered parallel detail fetch, merge, and cache
commit (`timestamp = lastSyncDate = now`) followed by the transform. -/
def getFieldMaps (st : Option Cache) (now : Int)
    (listResp : Except String (List Job))
    (detailResp : Nat → Except String JobDetail) : RefreshOut :=
  let cache := ensureCache st now
  match listResp with
  | Except.error e => ⟨Except.error e, some cache, []⟩
  | Except.ok modifiedJobs =>
    if modifiedJobs.length = 0 ∧ cacheValidOf st now = true ∧ 0 < cache.fullJobList.length then
      ⟨Except.ok (transformJobsToFieldMaps cache.fullJobList cache.jobDetailsCache),
       some cache, []⟩
    else
      let jobsNeedingDetails :=
        modifiedJobs.filter (fun job => needsUpdate cache.jobDetailsCache job)
      let dc1 := fetchDetails detailResp jobsNeedingDetails cache.jobDetailsCache
      let merged := mergeJobs cache.fullJobList dc1 modifiedJobs
      ⟨Except.ok (transformJobsToFieldMaps merged.1 merged.2),
       some { timestamp := now, lastSyncDate := now
            , fullJobList := merged.1, jobDetailsCache := merged.2 },
       jobsNeedingDetails.map (fun j => j.id)⟩

/-- A geometry feature; `template_type` embeds `f.properties?.template_type`
(`none` when `properties` or the tag is absent). -/
structure Feature where
  template_type : Option String := none
deriving Repr, DecidableEq

/-- A GeoJSON FeatureCollection as consumed by the monitor
(`geometry.features || []`). -/
structure Geometry where
  features : List Feature := []
deriving Repr, DecidableEq

/-- `templateTypes = geometryFeatures.map(f => f.properties?.template_type)
.filter(Boolean)`: absent tags and empty strings are dropped. -/
def templateTypesOf (geometryFeatures : List Feature) : List String :=
  (geometryFeatures.filterMap (fun f => f.template_type)).filter (fun s => decide (s ≠ ""))

/-- The four per-trigger rule toggles of the notification config. -/
structure NotificationRules where
  outlines : Bool := true
  exclusion : Bool := true
  nogo : Bool := true
  zeroArea : Bool := false
deriving Repr, DecidableEq

/-- The in-memory notification configuration (`this.config` of
`NotificationConfig`); the SMTP block is not modelled, no claim reads it. -/
structure NotifConfig where
  enabled : Bool := false
  alwaysNotify : List String := []
  contractorEmails : List (String × String) := []
  notificationRules : NotificationRules := {}
deriving Repr, DecidableEq

/-- The order-detail record produced by `getFieldMapDetails`; only the
fields read downstream by the monitor pipeline are carried. -/
structure OrderDetails where
  id : Nat := 0
  contractor : String := ""
  area : Nat := 0
deriving Repr, DecidableEq

/-- The notify/no-notify decision returned by `shouldNotify`. -/
structure Decision where
  notify : Bool
  reason : String
  type : Option String := none
deriving Repr, DecidableEq

/-- `notificationConfig.shouldNotify(order, geometryFeatures)` — fixed
priority order outlines, exclusion, nogo, zero-area; first match wins. -/
def shouldNotify (cfg : NotifConfig) (order : OrderDetails)
    (geometryFeatures : List Feature) : Decision :=
  if cfg.enabled = false then
    { notify := false, reason := "Notifications disabled" }
  else
    let templateTypes := templateTypesOf geometryFeatures
    if cfg.notificationRules.outlines = true ∧ "outlines" ∈ templateTypes then
      { notify := true, reason := "reference_field", type := some "outlines" }
    else if cfg.notificationRules.exclusion = true ∧ "exclusion" ∈ templateTypes then
      { notify := true, reason := "exclusion_zone", type := some "exclusion" }
    else if cfg.notificationRules.nogo = true ∧ "nogo" ∈ templateTypes then
      { notify := true, reason := "nogo_zone", type := some "nogo" }
    else if cfg.notificationRules.zeroArea = true ∧ order.area = 0 then
      { notify := true, reason := "zero_area", type := some "zero_area" }
    else
      { notify := false, reason := "No triggers matched" }

/-- String-keyed object lookup (`this.config.contractorEmails[name]`). -/
def lookupStr (l : List (String × String)) (k : String) : Option String :=
  (l.find? (fun p => decide (p.1 = k))).map (fun p => p.2)

/-- `[...new Set(recipients)]`: removes duplicates keeping first occurrences. -/
def dedupFirstAux (seen : List String) : List String → List String
  | [] => []
  | x :: xs =>
    if x ∈ seen then dedupFirstAux seen xs
    else x :: dedupFirstAux (x :: seen) xs

/-- Insertion-order deduplication, as JS `new Set` iteration order. -/
def dedupFirst (l : List String) : List String := dedupFirstAux [] l

/-- `notificationConfig.getRecipients(contractorName)`: always-notify list,
then the contractor mapping entry when the name and the mapped address are
both truthy, deduplicated. -/
def getRecipients (cfg : NotifConfig) (contractorName : String) : List String :=
  let base := cfg.alwaysNotify
  let recipients :=
    if contractorName ≠ "" then
      match lookupStr cfg.contractorEmails contractorName with
      | some e => if e ≠ "" then base ++ [e] else base
      | none => base
    else base
  dedupFirst recipients

/-- The `NotificationConfig` class defines loadConfig, saveConfig, getConfig,
updateConfig, addAlwaysNotify, removeAlwaysNotify, setContractorEmail,
removeContractorEmail, getRecipients and shouldNotify — and no
`getCustomMessage` method: the property lookup
`notificationConfig.getCustomMessage` yields `undefined`, so this slot is
`none`. -/
def getCustomMessageMethod : Option (String → String) := none

/-- The message of the `TypeError` raised by calling the missing method. -/
def typeErrorGetCustomMessage : String :=
  "TypeError: notificationConfig.getCustomMessage is not a function"

/-- JS evaluation of `notificationConfig.getCustomMessage(reason)`: invoking
an undefined property throws a `TypeError`. -/
def callGetCustomMessage (reason : String) : Except String String :=
  match getCustomMessageMethod with
  | some f => Except.ok (f reason)
  | none => Except.error typeErrorGetCustomMessage

/-- Upstream responses consumed by one monitor check pass: the (cached)
job-list refresh, the per-job `getFieldMapDetails` transform result, the
per-job requested-geometry download, and the email transport. -/
structure MonitorOracles where
  fieldMaps : Except String (List FieldMap)
  getFieldMapDetails : Nat → Except String OrderDetails
  downloadFieldMap : Nat → Except String Geometry
  sendOrderNotification : Nat → String → Except String Unit

/-- Observable events of one monitor check pass, in emission order.
`evalStarted id` marks the start of a job's evaluation (the
`getFieldMapDetails` call); `passError` is the outer catch. -/
inductive MEvent where
  | evalStarted (id : Nat)
  | geometrySkipped (id : Nat)
  | notifyDetected (id : Nat) (reason : String)
  | dispatchFailed (id : Nat) (msg : String)
  | emailSent (id : Nat)
  | noRecipients (id : Nat)
  | passError (msg : String)
deriving Repr, DecidableEq

/-- The `for (const order of fieldMaps)` loop of `checkForNewOrders`,
threading the seen set (`this.monitoredOrders`; JS stores `id.toString()`,
embedded as the id itself since decimal rendering is injective) and the
event trace.  A `getFieldMapDetails` failure is uncaught inside the loop
and aborts the pass into the outer catch; a geometry failure skips just
this job; the notification dispatch is wrapped in its own try/catch. -/
def runPass (cfg : NotifConfig) (oracles : MonitorOracles) :
    List FieldMap → List Nat → List MEvent → List Nat × List MEvent
  | [], seen, trace => (seen, trace)
  | order :: rest, seen, trace =>
    if order.id ∈ seen then runPass cfg oracles rest seen trace
    else
      let seen1 := seen ++ [order.id]
      match oracles.getFieldMapDetails order.id with
      | Except.error e =>
        (seen1, trace ++ [MEvent.evalStarted order.id, MEvent.passError e])
      | Except.ok orderDetails =>
        let trace1 := trace ++ [MEvent.evalStarted order.id]
        match oracles.downloadFieldMap order.id with
        | Except.error _ =>
          runPass cfg oracles rest seen1 (trace1 ++ [MEvent.geometrySkipped order.id])
        | Except.ok geometry =>
          let features := geometry.features
          let decision := shouldNotify cfg orderDetails features
          if decision.notify then
            let recipients := getRecipients cfg orderDetails.contractor
            if 0 < recipients.length then
              let trace2 := trace1 ++ [MEvent.notifyDetected order.id decision.reason]
              match callGetCustomMessage decision.reason with
              | Except.error e =>
                runPass cfg oracles rest seen1
                  (trace2 ++ [MEvent.dispatchFailed order.id e])
              | Except.ok msg =>
                match oracles.sendOrderNotification order.id msg with
                | Except.ok _ =>
                  runPass cfg oracles rest seen1 (trace2 ++ [MEvent.emailSent order.id])
                | Except.error e =>
                  runPass cfg oracles rest seen1
                    (trace2 ++ [MEvent.dispatchFailed order.id e])
            else
              runPass cfg oracles rest seen1 (trace1 ++ [MEvent.noRecipients order.id])
          else
            runPass cfg oracles rest seen1 trace1

/-- `orderMonitor.checkForNewOrders()`: a no-op pass when notifications are
disabled; a failed job-list refresh is caught by the pass-level catch;
otherwise the per-order loop runs over the refreshed list. -/
def checkForNewOrders (cfg : NotifConfig) (oracles : MonitorOracles)
    (seen : List Nat) : List Nat × List MEvent :=
  if cfg.enabled = false then (seen, [])
  else
    match oracles.fieldMaps with
    | Except.error e => (seen, [MEvent.passError e])
    | Except.ok fieldMaps => runPass cfg oracles fieldMaps seen []

/-- A sequence of monitor check passes within one process lifetime with no
intervening `reset()`: the seen set persists from pass to pass, the traces
are concatenated. -/
def runPasses (passes : List (NotifConfig × MonitorOracles)) (seen : List Nat) :
    List Nat × List MEvent :=
  match passes with
  | [] => (seen, [])
  | p :: rest =>
    let r := checkForNewOrders p.1 p.2 seen
    let r2 := runPasses rest r.1
    (r2.1, r.2 ++ r2.2)

/-- Number of evaluation starts for a given job id in a trace. -/
def countEval (trace : List MEvent) (id : Nat) : Nat :=
  (trace.filter (fun e => decide (e = MEvent.evalStarted id))).length

/-- Invariant of one monitor pass relating the entry seen-set and trace to
the pass output: the seen set only grows, ids already seen gain no new
evaluation, any id gains at most one evaluation, and an id whose
evaluation count grew ends up in the output seen set. -/
def PassInv (seen : List Nat) (trace : List MEvent) (out : List Nat × List MEvent) : Prop :=
  (∀ s ∈ seen, s ∈ out.1) ∧
  (∀ id, id ∈ seen → countEval out.2 id = countEval trace id) ∧
  (∀ id, countEval out.2 id ≤ countEval trace id + 1) ∧
  (∀ id, countEval trace id < countEval out.2 id → id ∈ out.1)

/-- A trace in which no email was ever sent and every notification attempt
has a matching per-job dispatch failure caused by the missing
`getCustomMessage` method. -/
def goodTrace (tr : List MEvent) : Prop :=
  (∀ id, MEvent.emailSent id ∉ tr) ∧
  (∀ id r, MEvent.notifyDetected id r ∈ tr →
    MEvent.dispatchFailed id typeErrorGetCustomMessage ∈ tr)

/-- The mutable fields of `SyncScheduler` read or written by `sync()`. -/
structure SchedulerState where
  isSyncing : Bool := false
  lastSyncTime : Option Int := none
  lastSyncStatus : Option String := none
  lastSyncError : Option String := none
  syncCount : Nat := 0
deriving Repr, DecidableEq

/-- The result object returned by `sync()` (wall-clock `duration` is not
modelled; `skipped` is absent, i.e. falsy, except on the guard path). -/
structure SyncResult where
  success : Bool
  message : String
  skipped : Bool := false
  fieldMapCount : Option Nat := none
  error : Option String := none
deriving Repr, DecidableEq

/-- One `sync()` call: its returned result, the scheduler state afterwards,
and whether the Sync Cache refresh (`tabulaService.getFieldMaps`) was
invoked. -/
structure SyncOutcome where
  result : SyncResult
  state : SchedulerState
  refreshInvoked : Bool
deriving Repr

/-- `syncScheduler.sync()` as a pure function of the pre-state, the current
time and the refresh outcome.  The guard returns the skip result without
touching state or calling the refresh; otherwise the run records outcome
and error, increments `syncCount` on the success path, and the `finally`
clears `isSyncing`. -/
def sync (st : SchedulerState) (now : Int)
    (refresh : Except String (List FieldMap)) : SyncOutcome :=
  if st.isSyncing then
    ⟨{ success := false, message := "Sync already in progress", skipped := true },
     st, false⟩
  else
    match refresh with
    | Except.ok fieldMaps =>
      ⟨{ success := true, message := "Sync completed successfully"
       , fieldMapCount := some fieldMaps.length },
       { st with isSyncing := false, lastSyncTime := some now
               , lastSyncStatus := some "success", lastSyncError := none
               , syncCount := st.syncCount + 1 },
       true⟩
    | Except.error e =>
      ⟨{ success := false, message := "Sync failed", error := some e },
       { st with isSyncing := false, lastSyncTime := some now
               , lastSyncStatus := some "failed", lastSyncError := some e },
       true⟩

/-! ### Association-list lemmas -/

theorem alistLookup_nil {α : Type} (k : Nat) :
    alistLookup ([] : List (Nat × α)) k = none := rfl

theorem alistLookup_cons {α : Type} (p : Nat × α) (l : List (Nat × α)) (k : Nat) :
    alistLookup (p :: l) k = if p.1 = k then some p.2 else alistLookup l k := by
  by_cases h : p.1 = k
  · rw [if_pos h]
    unfold alistLookup
    rw [List.find?_cons_of_pos _ (by simpa using h)]
    rfl
  · rw [if_neg h]
    unfold alistLookup
    rw [List.find?_cons_of_neg _ (by simpa using h)]

theorem alistLookup_insert {α : Type} (l : List (Nat × α)) (k k' : Nat) (v : α) :
    alistLookup (alistInsert l k v) k' = if k' = k then some v else alistLookup l k' := by
  induction l with
  | nil =>
    by_cases h : k' = k
    · simp [alistInsert, alistLookup_cons, h]
    · have hks : ¬ k = k' := fun hh => h (Eq.symm hh)
      simp [alistInsert, alistLookup_cons, h, hks, alistLookup_nil]
  | cons p rest ih =>
    have hstep : alistInsert (p :: rest) k v =
        if p.1 = k then (k, v) :: rest else p :: alistInsert rest k v := rfl
    by_cases hp : p.1 = k
    · rw [hstep, if_pos hp, alistLookup_cons, alistLookup_cons]
      by_cases h : k' = k
      · simp [h]
      · have hne : ¬ (k, v).1 = k' := fun hh => h (Eq.symm hh)
        have hpk : ¬ p.1 = k' := fun hh => h (by rw [← hh, hp])
        simp [hne, h, hpk]
    · rw [hstep, if_neg hp, alistLookup_cons, ih, alistLookup_cons]
      by_cases h : p.1 = k'
      · have hk : ¬ k' = k := fun hh => hp (by rw [h, hh])
        simp [h, hk]
      · simp [h]

theorem alistErase_nil {α : Type} (k : Nat) :
    alistErase ([] : List (Nat × α)) k = [] := rfl

theorem alistErase_cons {α : Type} (p : Nat × α) (l : List (Nat × α)) (k : Nat) :
    alistErase (p :: l) k = if p.1 = k then alistErase l k else p :: alistErase l k := by
  by_cases h : p.1 = k <;> simp [alistErase, List.filter_cons, h]

theorem alistLookup_erase {α : Type} (l : List (Nat × α)) (k k' : Nat) :
    alistLookup (alistErase l k) k' = if k' = k then none else alistLookup l k' := by
  induction l with
  | nil => by_cases h : k' = k <;> simp [alistErase_nil, alistLookup_nil, h]
  | cons p rest ih =>
    rw [alistErase_cons]
    by_cases hp : p.1 = k
    · rw [if_pos hp, ih]
      by_cases h : k' = k
      · simp [h]
      · have hpk : ¬ p.1 = k' := fun hh => h (by rw [← hh, hp])
        simp [h, alistLookup_cons, hpk]
    · rw [if_neg hp, alistLookup_cons]
      by_cases h : p.1 = k'
      · have hk : ¬ k' = k := fun hh => hp (by rw [h, hh])
        simp [h, hk, alistLookup_cons]
      · simp [h, ih, alistLookup_cons]

theorem mem_alistInsert {α : Type} (l : List (Nat × α)) (k : Nat) (v : α)
    (p : Nat × α) (hp : p ∈ alistInsert l k v) : p = (k, v) ∨ p ∈ l := by
  induction l with
  | nil => simpa [alistInsert] using hp
  | cons q rest ih =>
    by_cases hq : q.1 = k
    · simp only [alistInsert, if_pos hq, List.mem_cons] at hp
      rcases hp with h | h
      · exact Or.inl h
      · exact Or.inr (List.mem_cons_of_mem q h)
    · simp only [alistInsert, if_neg hq, List.mem_cons] at hp
      rcases hp with h | h
      · exact Or.inr (by simp [h])
      · rcases ih h with h' | h'
        · exact Or.inl h'
        · exact Or.inr (List.mem_cons_of_mem q h')

theorem mem_alistErase {α : Type} (l : List (Nat × α)) (k : Nat)
    (p : Nat × α) (hp : p ∈ alistErase l k) : p ∈ l :=
  List.mem_of_mem_filter hp

theorem alistLookup_eq_none_iff {α : Type} (l : List (Nat × α)) (k : Nat) :
    alistLookup l k = none ↔ ∀ p ∈ l, p.1 ≠ k := by
  induction l with
  | nil => simp [alistLookup_nil]
  | cons p rest ih =>
    rw [alistLookup_cons]
    by_cases h : p.1 = k
    · simp [h]
    · simp [h, ih]

theorem alistLookup_eq_some_mem {α : Type} (l : List (Nat × α)) (k : Nat) (v : α)
    (h : alistLookup l k = some v) : (k, v) ∈ l := by
  induction l with
  | nil => simp [alistLookup_nil] at h
  | cons p rest ih =>
    rw [alistLookup_cons] at h
    by_cases hp : p.1 = k
    · rw [if_pos hp] at h
      have : p = (k, v) := Prod.ext hp (by simpa using h)
      simp [← this]
    · rw [if_neg hp] at h
      exact List.mem_cons_of_mem p (ih h)

/-! ### Merge-fold and detail-fetch lemmas -/

theorem mergeFold_lookup_preserved (mj : List Job)
    (acc : List (Nat × Job) × List (Nat × JobDetail)) (k : Nat)
    (h : ∀ j ∈ mj, j.id ≠ k) :
    alistLookup (mj.foldl mergeStep acc).1 k = alistLookup acc.1 k ∧
    alistLookup (mj.foldl mergeStep acc).2 k = alistLookup acc.2 k := by
  induction mj generalizing acc with
  | nil => exact ⟨rfl, rfl⟩
  | cons j rest ih =>
    have hj : j.id ≠ k := h j (List.mem_cons_self j rest)
    have hkj : ¬ k = j.id := fun hh => hj (Eq.symm hh)
    have hrest : ∀ j' ∈ rest, j'.id ≠ k := fun j' hm => h j' (List.mem_cons_of_mem j hm)
    have hstep1 : alistLookup (mergeStep acc j).1 k = alistLookup acc.1 k := by
      unfold mergeStep
      by_cases hd : j.deleted = true <;>
        simp [hd, alistLookup_erase, alistLookup_insert, hkj]
    have hstep2 : alistLookup (mergeStep acc j).2 k = alistLookup acc.2 k := by
      unfold mergeStep
      by_cases hd : j.deleted = true <;> simp [hd, alistLookup_erase, hkj]
    rw [List.foldl_cons]
    exact ⟨((ih (mergeStep acc j) hrest).1).trans hstep1,
           ((ih (mergeStep acc j) hrest).2).trans hstep2⟩

theorem mergeFold_deleted (mj : List Job) (j : Job)
    (hnodup : (mj.map (fun x => x.id)).Nodup) (hmem : j ∈ mj) (hdel : j.deleted = true) :
    ∀ acc : List (Nat × Job) × List (Nat × JobDetail),
      alistLookup (mj.foldl mergeStep acc).1 j.id = none ∧
      alistLookup (mj.foldl mergeStep acc).2 j.id = none := by
  induction mj with
  | nil => cases hmem
  | cons j0 rest ih =>
    intro acc
    rw [List.map_cons, List.nodup_cons] at hnodup
    rcases List.mem_cons.mp hmem with heq | hmem'
    · subst heq
      have hrest : ∀ j' ∈ rest, j'.id ≠ j.id := by
        intro j' hj' hh
        exact hnodup.1 (by rw [← hh]; exact List.mem_map_of_mem _ hj')
      rw [List.foldl_cons]
      have hpres := mergeFold_lookup_preserved rest (mergeStep acc j) j.id hrest
      rw [hpres.1, hpres.2]
      unfold mergeStep
      simp [hdel, alistLookup_erase]
    · exact ih hnodup.2 hmem' (mergeStep acc j0)

theorem mergeFold_notDeleted (mj : List Job) (j : Job)
    (hnodup : (mj.map (fun x => x.id)).Nodup) (hmem : j ∈ mj) (hdel : j.deleted = false) :
    ∀ acc : List (Nat × Job) × List (Nat × JobDetail),
      alistLookup (mj.foldl mergeStep acc).1 j.id = some j := by
  induction mj with
  | nil => cases hmem
  | cons j0 rest ih =>
    intro acc
    rw [List.map_cons, List.nodup_cons] at hnodup
    rcases List.mem_cons.mp hmem with heq | hmem'
    · subst heq
      have hrest : ∀ j' ∈ rest, j'.id ≠ j.id := by
        intro j' hj' hh
        exact hnodup.1 (by rw [← hh]; exact List.mem_map_of_mem _ hj')
      rw [List.foldl_cons]
      have hpres := mergeFold_lookup_preserved rest (mergeStep acc j) j.id hrest
      rw [hpres.1]
      unfold mergeStep
      simp [hdel, alistLookup_insert]
    · exact ih hnodup.2 hmem' (mergeStep acc j0)

theorem mergeFold_keys (mj : List Job)
    (acc : List (Nat × Job) × List (Nat × JobDetail))
    (h1 : ∀ p ∈ acc.1, p.1 = p.2.id) :
    ∀ p ∈ (mj.foldl mergeStep acc).1, p.1 = p.2.id := by
  induction mj generalizing acc with
  | nil => exact h1
  | cons j rest ih =>
    rw [List.foldl_cons]
    apply ih
    intro p hp
    unfold mergeStep at hp
    by_cases hd : j.deleted = true
    · rw [if_pos hd] at hp
      exact h1 p (mem_alistErase _ _ p hp)
    · rw [if_neg hd] at hp
      rcases mem_alistInsert _ _ _ p hp with h' | h'
      · rw [h']
      · exact h1 p h'

theorem buildJobMap_keys (jobs : List Job) :
    ∀ p ∈ buildJobMap jobs, p.1 = p.2.id := by
  suffices h : ∀ (l : List Job) (acc : List (Nat × Job)), (∀ p ∈ acc, p.1 = p.2.id) →
      ∀ p ∈ l.foldl (fun m j => alistInsert m j.id j) acc, p.1 = p.2.id by
    intro p hp
    exact h jobs [] (by intro q hq; cases hq) p hp
  intro l
  induction l with
  | nil => intro acc h p hp; exact h p hp
  | cons j rest ih =>
    intro acc h
    rw [List.foldl_cons]
    apply ih
    intro p hp
    rcases mem_alistInsert _ _ _ p hp with h' | h'
    · rw [h']
    · exact h p h'

theorem fetchDetails_lookup_preserved (detailResp : Nat → Except String JobDetail)
    (jobs : List Job) (k : Nat) :
    ∀ dc : List (Nat × JobDetail), (∀ j ∈ jobs, j.id ≠ k) →
      alistLookup (fetchDetails detailResp jobs dc) k = alistLookup dc k := by
  induction jobs with
  | nil => intro dc _; rfl
  | cons j rest ih =>
    intro dc h
    have hj : j.id ≠ k := h j (List.mem_cons_self j rest)
    have hkj : ¬ k = j.id := fun hh => hj (Eq.symm hh)
    have hrest : ∀ j' ∈ rest, j'.id ≠ k := fun j' hm => h j' (List.mem_cons_of_mem j hm)
    have hstep : fetchDetails detailResp (j :: rest) dc =
        fetchDetails detailResp rest
          (match detailResp j.id with
           | Except.ok d => alistInsert dc j.id d
           | Except.error _ => dc) := rfl
    rw [hstep]
    cases hr : detailResp j.id with
    | ok d =>
      simp only [hr]
      rw [ih _ hrest, alistLookup_insert, if_neg hkj]
    | error e =>
      simp only [hr]
      rw [ih _ hrest]

theorem fetchDetails_error (detailResp : Nat → Except String JobDetail)
    (jobs : List Job) (j : Job) (e : String) :
    (jobs.map (fun x => x.id)).Nodup → j ∈ jobs → detailResp j.id = Except.error e →
      ∀ dc : List (Nat × JobDetail),
        alistLookup (fetchDetails detailResp jobs dc) j.id = alistLookup dc j.id := by
  induction jobs with
  | nil => intro _ hmem; cases hmem
  | cons j0 rest ih =>
    intro hnodup hmem herr dc
    rw [List.map_cons, List.nodup_cons] at hnodup
    have hstep : fetchDetails detailResp (j0 :: rest) dc =
        fetchDetails detailResp rest
          (match detailResp j0.id with
           | Except.ok d => alistInsert dc j0.id d
           | Except.error _ => dc) := rfl
    rw [hstep]
    rcases List.mem_cons.mp hmem with heq | hmem'
    · subst heq
      have hrest : ∀ j' ∈ rest, j'.id ≠ j.id := by
        intro j' hj' hh
        exact hnodup.1 (by rw [← hh]; exact List.mem_map_of_mem _ hj')
      simp only [herr]
      exact fetchDetails_lookup_preserved detailResp rest j.id dc hrest
    · have hne : ¬ j.id = j0.id := by
        intro hh
        exact hnodup.1 (by rw [← hh]; exact List.mem_map_of_mem _ hmem')
      cases hr : detailResp j0.id with
      | ok d =>
        simp only [hr]
        rw [ih hnodup.2 hmem' herr _, alistLookup_insert, if_neg hne]
      | error e2 =>
        simp only [hr]
        rw [ih hnodup.2 hmem' herr _]

theorem mergeJobs_deleted_absent (fullJobList : List Job) (dc : List (Nat × JobDetail))
    (mj : List Job) (j : Job)
    (hnodup : (mj.map (fun x => x.id)).Nodup) (hmem : j ∈ mj) (hdel : j.deleted = true) :
    (∀ jb ∈ (mergeJobs fullJobList dc mj).1, jb.id ≠ j.id) ∧
    alistLookup (mergeJobs fullJobList dc mj).2 j.id = none := by
  have hfold := mergeFold_deleted mj j hnodup hmem hdel (buildJobMap fullJobList, dc)
  constructor
  · intro jb hjb
    have hlist : (mergeJobs fullJobList dc mj).1 =
        (mj.foldl mergeStep (buildJobMap fullJobList, dc)).1.map (fun p => p.2) := rfl
    rw [hlist] at hjb
    rcases List.mem_map.mp hjb with ⟨p, hp, hpe⟩
    have hkey := mergeFold_keys mj (buildJobMap fullJobList, dc)
      (buildJobMap_keys fullJobList) p hp
    have hnone := (alistLookup_eq_none_iff _ _).mp hfold.1 p hp
    rw [← hpe, ← hkey]
    exact hnone
  · exact hfold.2

theorem mergeJobs_notDeleted_mem (fullJobList : List Job) (dc : List (Nat × JobDetail))
    (mj : List Job) (j : Job)
    (hnodup : (mj.map (fun x => x.id)).Nodup) (hmem : j ∈ mj) (hdel : j.deleted = false) :
    j ∈ (mergeJobs fullJobList dc mj).1 := by
  have hfold := mergeFold_notDeleted mj j hnodup hmem hdel (buildJobMap fullJobList, dc)
  exact List.mem_map.mpr ⟨(j.id, j), alistLookup_eq_some_mem _ _ _ hfold, rfl⟩

/-! ### Unfolding lemmas for `getFieldMaps` -/

theorem getFieldMaps_error_eq (st : Option Cache) (now : Int) (e : String)
    (detailResp : Nat → Except String JobDetail) :
    getFieldMaps st now (Except.error e) detailResp =
      ⟨Except.error e, some (ensureCache st now), []⟩ := rfl

theorem getFieldMaps_ok_eq (st : Option Cache) (now : Int) (mj : List Job)
    (detailResp : Nat → Except String JobDetail) :
    getFieldMaps st now (Except.ok mj) detailResp =
      if mj.length = 0 ∧ cacheValidOf st now = true ∧
          0 < (ensureCache st now).fullJobList.length then
        ⟨Except.ok (transformJobsToFieldMaps (ensureCache st now).fullJobList
            (ensureCache st now).jobDetailsCache),
         some (ensureCache st now), []⟩
      else
        ⟨Except.ok (transformJobsToFieldMaps
            (mergeJobs (ensureCache st now).fullJobList
              (fetchDetails detailResp
                (mj.filter (fun job => needsUpdate (ensureCache st now).jobDetailsCache job))
                (ensureCache st now).jobDetailsCache) mj).1
            (mergeJobs (ensureCache st now).fullJobList
              (fetchDetails detailResp
                (mj.filter (fun job => needsUpdate (ensureCache st now).jobDetailsCache job))
                (ensureCache st now).jobDetailsCache) mj).2),
         some { timestamp := now, lastSyncDate := now
              , fullJobList :=
                  (mergeJobs (ensureCache st now).fullJobList
                    (fetchDetails detailResp
                      (mj.filter
                        (fun job => needsUpdate (ensureCache st now).jobDetailsCache job))
                      (ensureCache st now).jobDetailsCache) mj).1
              , jobDetailsCache :=
                  (mergeJobs (ensureCache st now).fullJobList
                    (fetchDetails detailResp
                      (mj.filter
                        (fun job => needsUpdate (ensureCache st now).jobDetailsCache job))
                      (ensureCache st now).jobDetailsCache) mj).2 },
         (mj.filter (fun job => needsUpdate (ensureCache st now).jobDetailsCache job)).map
           (fun j => j.id)⟩ := by
  by_cases hcond : mj.length = 0 ∧ cacheValidOf st now = true ∧
      0 < (ensureCache st now).fullJobList.length
  · simp only [getFieldMaps]
  · simp only [getFieldMaps]

/-! ### Claim theorems: Sync Cache -/

/-- **C1**: if the upstream modified-list call inside a refresh fails, the
error propagates to the caller and the account's cache entry
(`lastSyncDate`, `fullJobList`, `jobDetailsCache` and `timestamp`) is
exactly what it was before the call — for an account with an existing
entry the entry is untouched — and no detail fetch is issued; moreover
`lastSyncDate` (the sync timestamp) moves away from its pre-call value
only when the refresh completes successfully. -/
theorem getFieldMaps_error_preserves_cache :
    (∀ (c : Cache) (now : Int) (e : String)
       (detailResp : Nat → Except String JobDetail),
       getFieldMaps (some c) now (Except.error e) detailResp =
         ⟨Except.error e, some c, []⟩) ∧
    (∀ (st : Option Cache) (now : Int) (listResp : Except String (List Job))
       (detailResp : Nat → Except String JobDetail) (c' : Cache),
       (getFieldMaps st now listResp detailResp).state = some c' →
       c'.lastSyncDate ≠ (ensureCache st now).lastSyncDate →
       ∃ fms, (getFieldMaps st now listResp detailResp).result = Except.ok fms) := by
  constructor
  · intro c now e detailResp
    rfl
  · intro st now listResp detailResp c' hstate hne
    cases listResp with
    | error e =>
      rw [getFieldMaps_error_eq] at hstate
      have heq : ensureCache st now = c' := by simpa using hstate
      exact absurd (congrArg Cache.lastSyncDate heq.symm) hne
    | ok mj =>
      rw [getFieldMaps_ok_eq]
      by_cases hcond : mj.length = 0 ∧ cacheValidOf st now = true ∧
          0 < (ensureCache st now).fullJobList.length
      · rw [if_pos hcond]
        exact ⟨_, rfl⟩
      · rw [if_neg hcond]
        exact ⟨_, rfl⟩

/-- Witness for C1: a concrete refresh whose merge commit moves
`lastSyncDate` from 5 to 0 indeed returned ok. -/
theorem getFieldMaps_error_preserves_cache_witness :
    ∃ fms, (getFieldMaps (some ⟨0, 5, [], []⟩) 0 (Except.ok [{ id := 1 }])
      (fun _ => Except.error "x")).result = Except.ok fms :=
  getFieldMaps_error_preserves_cache.2 (some ⟨0, 5, [], []⟩) 0
    (Except.ok [{ id := 1 }]) (fun _ => Except.error "x")
    ⟨0, 0, [{ id := 1 }], []⟩ rfl (by decide)

/-- **C3**: a refresh that receives an empty modified-list while the cache
entry is non-empty and younger than 5 minutes returns exactly the
transform of the prior cached state, leaves the cache entry unchanged and
issues no detail fetch. -/
theorem getFieldMaps_emptyShortCircuit (c : Cache) (now : Int)
    (detailResp : Nat → Except String JobDetail)
    (hfresh : now - c.timestamp < cacheExpiry) (hne : c.fullJobList ≠ []) :
    getFieldMaps (some c) now (Except.ok []) detailResp =
      ⟨Except.ok (transformJobsToFieldMaps c.fullJobList c.jobDetailsCache),
       some c, []⟩ := by
  rw [getFieldMaps_ok_eq]
  have hcond : ([] : List Job).length = 0 ∧ cacheValidOf (some c) now = true ∧
      0 < (ensureCache (some c) now).fullJobList.length := by
    refine ⟨rfl, ?_, ?_⟩
    · simp [cacheValidOf, hfresh]
    · simpa [ensureCache, List.length_pos] using hne
  rw [if_pos hcond]
  rfl

/-- Witness for C3 at a concrete fresh, non-empty cache entry. -/
theorem getFieldMaps_emptyShortCircuit_witness :
    (0 : Int) - (⟨0, 0, [{ id := 1 }], []⟩ : Cache).timestamp < cacheExpiry ∧
    (⟨0, 0, [{ id := 1 }], []⟩ : Cache).fullJobList ≠ [] ∧
    getFieldMaps (some ⟨0, 0, [{ id := 1 }], []⟩) 0 (Except.ok [])
        (fun _ => Except.error "x") =
      ⟨Except.ok (transformJobsToFieldMaps [{ id := 1 }] []),
       some ⟨0, 0, [{ id := 1 }], []⟩, []⟩ :=
  ⟨by decide, by decide,
   getFieldMaps_emptyShortCircuit ⟨0, 0, [{ id := 1 }], []⟩ 0
     (fun _ => Except.error "x") (by decide) (by decide)⟩

/-- **C4**: during a refresh the per-job detail fetch is issued for exactly
the modified-list jobs with no cached detail entry or a cached entry whose
`modified_date` differs (`needsUpdate`); a refresh whose modified-list
call succeeded returns ok regardless of individual detail-fetch failures;
and a job whose detail fetch fails keeps its detail-cache entry exactly as
it was (stale or absent) through the fetch phase. -/
theorem getFieldMaps_detailFetchPolicy :
    (∀ (st : Option Cache) (now : Int) (mj : List Job)
       (detailResp : Nat → Except String JobDetail),
       (getFieldMaps st now (Except.ok mj) detailResp).detailFetches =
         (mj.filter (fun job => needsUpdate (ensureCache st now).jobDetailsCache job)).map
           (fun j => j.id)) ∧
    (∀ (st : Option Cache) (now : Int) (mj : List Job)
       (detailResp : Nat → Except String JobDetail),
       ∃ fms, (getFieldMaps st now (Except.ok mj) detailResp).result = Except.ok fms) ∧
    (∀ (detailResp : Nat → Except String JobDetail) (jobs : List Job)
       (dc : List (Nat × JobDetail)) (j : Job) (e : String),
       (jobs.map (fun x => x.id)).Nodup → j ∈ jobs →
       detailResp j.id = Except.error e →
       alistLookup (fetchDetails detailResp jobs dc) j.id = alistLookup dc j.id) := by
  refine ⟨?_, ?_, ?_⟩
  · intro st now mj detailResp
    rw [getFieldMaps_ok_eq]
    by_cases hcond : mj.length = 0 ∧ cacheValidOf st now = true ∧
        0 < (ensureCache st now).fullJobList.length
    · rw [if_pos hcond]
      have hmjnil : mj = [] := List.length_eq_zero.mp hcond.1
      subst hmjnil
      rfl
    · rw [if_neg hcond]
  · intro st now mj detailResp
    rw [getFieldMaps_ok_eq]
    by_cases hcond : mj.length = 0 ∧ cacheValidOf st now = true ∧
        0 < (ensureCache st now).fullJobList.length
    · rw [if_pos hcond]
      exact ⟨_, rfl⟩
    · rw [if_neg hcond]
      exact ⟨_, rfl⟩
  · intro detailResp jobs dc j e h1 h2 h3
    exact fetchDetails_error detailResp jobs j e h1 h2 h3 dc

/-- Witness for C4: a failed detail fetch for job 1 leaves its stale cached
detail entry exactly as it was. -/
theorem getFieldMaps_detailFetchPolicy_witness :
    alistLookup (fetchDetails (fun _ => Except.error "boom") [{ id := 1 }]
      [(1, { modified_date := "a" })]) 1 =
    alistLookup [(1, ({ modified_date := "a" } : JobDetail))] 1 :=
  getFieldMaps_detailFetchPolicy.2.2 (fun _ => Except.error "boom")
    [{ id := 1 }] [(1, { modified_date := "a" })] { id := 1 } "boom"
    (by decide) (by decide) rfl

/-- **C5**: a job flagged deleted in the modified-list response is absent
from the refresh's returned job list, from the committed `fullJobList` and
from the committed `jobDetailsCache`; every non-deleted modified job is
present in the committed full job list (inserted or replaced keyed by its
id). -/
theorem getFieldMaps_deletedJobsRemoved (st : Option Cache) (now : Int)
    (mj : List Job) (detailResp : Nat → Except String JobDetail) (j : Job)
    (hnodup : (mj.map (fun x => x.id)).Nodup) (hmem : j ∈ mj)
    (hdel : j.deleted = true) :
    (∀ fms, (getFieldMaps st now (Except.ok mj) detailResp).result = Except.ok fms →
       ∀ fm ∈ fms, fm.id ≠ j.id) ∧
    (∀ c', (getFieldMaps st now (Except.ok mj) detailResp).state = some c' →
       (∀ jb ∈ c'.fullJobList, jb.id ≠ j.id) ∧
       alistLookup c'.jobDetailsCache j.id = none) ∧
    (∀ j' ∈ mj, j'.deleted = false →
       ∀ c', (getFieldMaps st now (Except.ok mj) detailResp).state = some c' →
         j' ∈ c'.fullJobList) := by
  have hne : mj ≠ [] := List.ne_nil_of_mem hmem
  have hcond : ¬ (mj.length = 0 ∧ cacheValidOf st now = true ∧
      0 < (ensureCache st now).fullJobList.length) := by
    intro h
    exact hne (List.length_eq_zero.mp h.1)
  have heq := getFieldMaps_ok_eq st now mj detailResp
  rw [if_neg hcond] at heq
  refine ⟨?_, ?_, ?_⟩
  · intro fms hres fm hfm
    rw [heq] at hres
    have hfms : fms = transformJobsToFieldMaps
        (mergeJobs (ensureCache st now).fullJobList
          (fetchDetails detailResp
            (mj.filter (fun job => needsUpdate (ensureCache st now).jobDetailsCache job))
            (ensureCache st now).jobDetailsCache) mj).1
        (mergeJobs (ensureCache st now).fullJobList
          (fetchDetails detailResp
            (mj.filter (fun job => needsUpdate (ensureCache st now).jobDetailsCache job))
            (ensureCache st now).jobDetailsCache) mj).2 := by
      simpa using hres.symm
    subst hfms
    rcases List.mem_map.mp hfm with ⟨jb, hjb, hje⟩
    have hid : fm.id = jb.id := by rw [← hje]; rfl
    rw [hid]
    exact (mergeJobs_deleted_absent _ _ mj j hnodup hmem hdel).1 jb hjb
  · intro c' hstate
    rw [heq] at hstate
    have hc' : c' = Cache.mk now now
        (mergeJobs (ensureCache st now).fullJobList
          (fetchDetails detailResp
            (mj.filter (fun job => needsUpdate (ensureCache st now).jobDetailsCache job))
            (ensureCache st now).jobDetailsCache) mj).1
        (mergeJobs (ensureCache st now).fullJobList
          (fetchDetails detailResp
            (mj.filter (fun job => needsUpdate (ensureCache st now).jobDetailsCache job))
            (ensureCache st now).jobDetailsCache) mj).2 := by
      simpa using hstate.symm
    subst hc'
    exact ⟨(mergeJobs_deleted_absent _ _ mj j hnodup hmem hdel).1,
           (mergeJobs_deleted_absent _ _ mj j hnodup hmem hdel).2⟩
  · intro j' hj' hdel' c' hstate
    rw [heq] at hstate
    have hc' : c' = Cache.mk now now
        (mergeJobs (ensureCache st now).fullJobList
          (fetchDetails detailResp
            (mj.filter (fun job => needsUpdate (ensureCache st now).jobDetailsCache job))
            (ensureCache st now).jobDetailsCache) mj).1
        (mergeJobs (ensureCache st now).fullJobList
          (fetchDetails detailResp
            (mj.filter (fun job => needsUpdate (ensureCache st now).jobDetailsCache job))
            (ensureCache st now).jobDetailsCache) mj).2 := by
      simpa using hstate.symm
    subst hc'
    exact mergeJobs_notDeleted_mem _ _ mj j' hnodup hj' hdel'

/-- Witness for C5: deleting job 1 while inserting job 2 leaves a committed
state without job 1 and with job 2. -/
theorem getFieldMaps_deletedJobsRemoved_witness :
    (∀ jb ∈ (⟨0, 0, [{ id := 2 }], []⟩ : Cache).fullJobList, jb.id ≠ 1) ∧
    alistLookup (⟨0, 0, [{ id := 2 }], []⟩ : Cache).jobDetailsCache 1 = none :=
  (getFieldMaps_deletedJobsRemoved none 0
      [{ id := 1, deleted := true }, { id := 2 }]
      (fun _ => Except.error "x") { id := 1, deleted := true }
      (by decide) (by decide) rfl).2.1
    ⟨0, 0, [{ id := 2 }], []⟩ rfl

/-! ### Claim theorems: Sync Scheduler -/

/-- **C6**: a `sync()` call made while a previous run is still in progress
(`isSyncing` true) returns immediately a result marked skipped with message
"Sync already in progress", leaves the scheduler state untouched and does
not invoke the Sync Cache refresh. -/
theorem sync_guard_skips (st : SchedulerState) (now : Int)
    (refresh : Except String (List FieldMap)) (h : st.isSyncing = true) :
    sync st now refresh =
      ⟨{ success := false, message := "Sync already in progress", skipped := true },
       st, false⟩ := by
  simp [sync, h]

/-- Witness for C6 at a concrete in-progress state. -/
theorem sync_guard_skips_witness :
    sync ⟨true, none, none, none, 0⟩ 0 (Except.ok []) =
      ⟨{ success := false, message := "Sync already in progress", skipped := true },
       ⟨true, none, none, none, 0⟩, false⟩ :=
  sync_guard_skips ⟨true, none, none, none, 0⟩ 0 (Except.ok []) rfl

/-- **C7** (amended): a non-skipped run that completes successfully
increments `syncCount` by exactly one; a non-skipped run that fails leaves
`syncCount` unchanged (the increment sits on the success path only). -/
theorem sync_count_increment (st : SchedulerState) (now : Int)
    (refresh : Except String (List FieldMap)) (h : st.isSyncing = false) :
    ((∃ fms, refresh = Except.ok fms) →
       (sync st now refresh).state.syncCount = st.syncCount + 1) ∧
    (∀ e, refresh = Except.error e →
       (sync st now refresh).state.syncCount = st.syncCount) := by
  constructor
  · rintro ⟨fms, rfl⟩
    simp [sync, h]
  · rintro e rfl
    simp [sync, h]

/-- Witness for the amended C7: a successful run moves `syncCount` 0 → 1. -/
theorem sync_count_increment_witness :
    (sync ⟨false, none, none, none, 0⟩ 0 (Except.ok [])).state.syncCount = 0 + 1 :=
  (sync_count_increment ⟨false, none, none, none, 0⟩ 0 (Except.ok []) rfl).1 ⟨[], rfl⟩

/-- Counterexample to C7 as stated: the concrete non-skipped run with a
failing refresh ends with `syncCount` still 0, not incremented by one. -/
theorem sync_count_increment_cex :
    (sync ⟨false, none, none, none, 0⟩ 0 (Except.error "boom")).result.skipped = false ∧
    (sync ⟨false, none, none, none, 0⟩ 0 (Except.error "boom")).state.syncCount ≠
      (⟨false, none, none, none, 0⟩ : SchedulerState).syncCount + 1 := by
  constructor
  · rfl
  · decide

/-! ### Claim theorems: Notification Decision Engine -/

/-- **C8**: with notifications enabled, both the outlines and exclusion
rules enabled, and geometry features tagged with both "outlines" and
"exclusion", `shouldNotify` reports notify with reason `reference_field`
(first matching trigger in the fixed order wins), not `exclusion_zone`. -/
theorem shouldNotify_outlines_priority (cfg : NotifConfig) (order : OrderDetails)
    (features : List Feature)
    (hen : cfg.enabled = true)
    (hout : cfg.notificationRules.outlines = true)
    (hexc : cfg.notificationRules.exclusion = true)
    (hmem1 : "outlines" ∈ templateTypesOf features)
    (hmem2 : "exclusion" ∈ templateTypesOf features) :
    (shouldNotify cfg order features).notify = true ∧
    (shouldNotify cfg order features).reason = "reference_field" ∧
    (shouldNotify cfg order features).reason ≠ "exclusion_zone" := by
  have h1 : ¬ (cfg.enabled = false) := by simp [hen]
  have hfix : shouldNotify cfg order features =
      { notify := true, reason := "reference_field", type := some "outlines" } := by
    simp only [shouldNotify]
    rw [if_neg h1, if_pos ⟨hout, hmem1⟩]
  rw [hfix]
  exact ⟨rfl, rfl, by decide⟩

/-- Witness for C8 at a concrete configuration and feature list carrying
both tags. -/
theorem shouldNotify_outlines_priority_witness :
    (shouldNotify ⟨true, [], [], ⟨true, true, true, false⟩⟩ {}
      [⟨some "outlines"⟩, ⟨some "exclusion"⟩]).reason = "reference_field" :=
  (shouldNotify_outlines_priority ⟨true, [], [], ⟨true, true, true, false⟩⟩ {}
    [⟨some "outlines"⟩, ⟨some "exclusion"⟩]
    rfl rfl rfl (by decide) (by decide)).2.1

/-! ### Monitor pass lemmas -/

theorem countEval_nil (id : Nat) : countEval [] id = 0 := rfl

theorem countEval_append (a b : List MEvent) (id : Nat) :
    countEval (a ++ b) id = countEval a id + countEval b id := by
  simp [countEval, List.filter_append]

theorem countEval_cons (e : MEvent) (tr : List MEvent) (id : Nat) :
    countEval (e :: tr) id =
      (if e = MEvent.evalStarted id then 1 else 0) + countEval tr id := by
  by_cases h : e = MEvent.evalStarted id <;>
    simp [countEval, List.filter_cons, h, Nat.add_comm]

theorem PassInv_refl (seen : List Nat) (trace : List MEvent) :
    PassInv seen trace (seen, trace) :=
  ⟨fun _ h => h, fun _ _ => rfl, fun _ => Nat.le_succ _,
   fun _ h => absurd h (lt_irrefl _)⟩

theorem PassInv_extend (oid : Nat) (seen : List Nat) (trace Δ : List MEvent)
    (out : List Nat × List MEvent)
    (hmem : oid ∉ seen)
    (hΔ : ∀ id, countEval Δ id = if oid = id then 1 else 0)
    (hout : PassInv (seen ++ [oid]) (trace ++ Δ) out) :
    PassInv seen trace out := by
  obtain ⟨h1, h2, h3, h4⟩ := hout
  refine ⟨?_, ?_, ?_, ?_⟩
  · intro s hs
    exact h1 s (List.mem_append_left _ hs)
  · intro id hid
    have hne : oid ≠ id := fun hh => hmem (hh ▸ hid)
    rw [h2 id (List.mem_append_left _ hid), countEval_append, hΔ, if_neg hne,
      Nat.add_zero]
  · intro id
    by_cases hid : id ∈ seen ++ [oid]
    · rw [h2 id hid, countEval_append, hΔ]
      by_cases he : oid = id
      · rw [if_pos he]
      · rw [if_neg he, Nat.add_zero]
        exact Nat.le_succ _
    · have hne : oid ≠ id := fun hh => hid (by
        rw [← hh]
        exact List.mem_append_right _ (List.mem_singleton.mpr rfl))
      calc countEval out.2 id ≤ countEval (trace ++ Δ) id + 1 := h3 id
        _ = countEval trace id + 1 := by
              rw [countEval_append, hΔ, if_neg hne, Nat.add_zero]
  · intro id hlt
    by_cases he : oid = id
    · subst he
      exact h1 oid (List.mem_append_right _ (List.mem_singleton.mpr rfl))
    · have heq : countEval (trace ++ Δ) id = countEval trace id := by
        rw [countEval_append, hΔ, if_neg he, Nat.add_zero]
      by_cases hid2 : id ∈ seen ++ [oid]
      · rw [h2 id hid2, heq] at hlt
        exact absurd hlt (lt_irrefl _)
      · exact h4 id (by rw [heq]; exact hlt)

theorem runPass_nil (cfg : NotifConfig) (oracles : MonitorOracles)
    (seen : List Nat) (trace : List MEvent) :
    runPass cfg oracles [] seen trace = (seen, trace) := rfl

theorem runPass_cons_seen (cfg : NotifConfig) (oracles : MonitorOracles)
    (order : FieldMap) (rest : List FieldMap) (seen : List Nat) (trace : List MEvent)
    (h : order.id ∈ seen) :
    runPass cfg oracles (order :: rest) seen trace =
      runPass cfg oracles rest seen trace := by
  simp [runPass, h]

theorem runPass_inv (cfg : NotifConfig) (oracles : MonitorOracles) :
    ∀ (fms : List FieldMap) (seen : List Nat) (trace : List MEvent),
      PassInv seen trace (runPass cfg oracles fms seen trace) := by
  intro fms
  induction fms with
  | nil =>
    intro seen trace
    rw [runPass_nil]
    exact PassInv_refl seen trace
  | cons order rest ih =>
    intro seen trace
    by_cases hmem : order.id ∈ seen
    · rw [runPass_cons_seen cfg oracles order rest seen trace hmem]
      exact ih seen trace
    · cases hdet : oracles.getFieldMapDetails order.id with
      | error e =>
        have hrw : runPass cfg oracles (order :: rest) seen trace =
            (seen ++ [order.id],
             trace ++ [MEvent.evalStarted order.id, MEvent.passError e]) := by
          simp [runPass, hmem, hdet]
        rw [hrw]
        refine PassInv_extend order.id seen trace _ _ hmem ?_ (PassInv_refl _ _)
        intro id
        by_cases h : order.id = id <;>
          simp [countEval_cons, countEval_nil, h]
      | ok details =>
        cases hgeo : oracles.downloadFieldMap order.id with
        | error ge =>
          have hrw : runPass cfg oracles (order :: rest) seen trace =
              runPass cfg oracles rest (seen ++ [order.id])
                (trace ++ [MEvent.evalStarted order.id,
                           MEvent.geometrySkipped order.id]) := by
            simp [runPass, hmem, hdet, hgeo]
          rw [hrw]
          refine PassInv_extend order.id seen trace _ _ hmem ?_ (ih _ _)
          intro id
          by_cases h : order.id = id <;>
            simp [countEval_cons, countEval_nil, h]
        | ok geometry =>
          by_cases hnot : (shouldNotify cfg details geometry.features).notify = true
          · by_cases hrec : 0 < (getRecipients cfg details.contractor).length
            · have hrw : runPass cfg oracles (order :: rest) seen trace =
                  runPass cfg oracles rest (seen ++ [order.id])
                    (trace ++ [MEvent.evalStarted order.id,
                      MEvent.notifyDetected order.id
                        (shouldNotify cfg details geometry.features).reason,
                      MEvent.dispatchFailed order.id typeErrorGetCustomMessage]) := by
                simp [runPass, hmem, hdet, hgeo, hnot, hrec, callGetCustomMessage,
                  getCustomMessageMethod]
              rw [hrw]
              refine PassInv_extend order.id seen trace _ _ hmem ?_ (ih _ _)
              intro id
              by_cases h : order.id = id <;>
                simp [countEval_cons, countEval_nil, h]
            · have hrw : runPass cfg oracles (order :: rest) seen trace =
                  runPass cfg oracles rest (seen ++ [order.id])
                    (trace ++ [MEvent.evalStarted order.id,
                               MEvent.noRecipients order.id]) := by
                simp [runPass, hmem, hdet, hgeo, hnot, hrec]
              rw [hrw]
              refine PassInv_extend order.id seen trace _ _ hmem ?_ (ih _ _)
              intro id
              by_cases h : order.id = id <;>
                simp [countEval_cons, countEval_nil, h]
          · have hrw : runPass cfg oracles (order :: rest) seen trace =
                runPass cfg oracles rest (seen ++ [order.id])
                  (trace ++ [MEvent.evalStarted order.id]) := by
              simp [runPass, hmem, hdet, hgeo, hnot]
            rw [hrw]
            refine PassInv_extend order.id seen trace _ _ hmem ?_ (ih _ _)
            intro id
            by_cases h : order.id = id <;>
              simp [countEval_cons, countEval_nil, h]

theorem goodTrace_nil : goodTrace [] :=
  ⟨fun _ h => absurd h (List.not_mem_nil _), fun _ _ h => absurd h (List.not_mem_nil _)⟩

theorem goodTrace_extend (trace Δ : List MEvent)
    (h1 : ∀ id, MEvent.emailSent id ∉ Δ)
    (h2 : ∀ id r, MEvent.notifyDetected id r ∈ Δ →
        MEvent.dispatchFailed id typeErrorGetCustomMessage ∈ Δ)
    (hg : goodTrace trace) : goodTrace (trace ++ Δ) := by
  constructor
  · intro id hmem
    rcases List.mem_append.mp hmem with h | h
    · exact hg.1 id h
    · exact h1 id h
  · intro id r hmem
    rcases List.mem_append.mp hmem with h | h
    · exact List.mem_append_left _ (hg.2 id r h)
    · exact List.mem_append_right _ (h2 id r h)

theorem runPass_good (cfg : NotifConfig) (oracles : MonitorOracles) :
    ∀ (fms : List FieldMap) (seen : List Nat) (trace : List MEvent),
      (∀ e ∈ trace, e ∈ (runPass cfg oracles fms seen trace).2) ∧
      (goodTrace trace → goodTrace (runPass cfg oracles fms seen trace).2) := by
  intro fms
  induction fms with
  | nil =>
    intro seen trace
    rw [runPass_nil]
    exact ⟨fun _ he => he, fun h => h⟩
  | cons order rest ih =>
    intro seen trace
    by_cases hmem : order.id ∈ seen
    · rw [runPass_cons_seen _ _ _ _ _ _ hmem]
      exact ih seen trace
    · cases hdet : oracles.getFieldMapDetails order.id with
      | error er =>
        have hrw : runPass cfg oracles (order :: rest) seen trace =
            (seen ++ [order.id],
             trace ++ [MEvent.evalStarted order.id, MEvent.passError er]) := by
          simp [runPass, hmem, hdet]
        rw [hrw]
        refine ⟨fun e he => List.mem_append_left _ he, fun hg => ?_⟩
        refine goodTrace_extend trace _ ?_ ?_ hg
        · intro id
          simp
        · intro id r hm
          simp at hm
      | ok details =>
        cases hgeo : oracles.downloadFieldMap order.id with
        | error ge =>
          have hrw : runPass cfg oracles (order :: rest) seen trace =
              runPass cfg oracles rest (seen ++ [order.id])
                (trace ++ [MEvent.evalStarted order.id,
                           MEvent.geometrySkipped order.id]) := by
            simp [runPass, hmem, hdet, hgeo]
          rw [hrw]
          refine ⟨fun e he => (ih _ _).1 e (List.mem_append_left _ he), fun hg => ?_⟩
          refine (ih _ _).2 (goodTrace_extend trace _ ?_ ?_ hg)
          · intro id
            simp
          · intro id r hm
            simp at hm
        | ok geometry =>
          by_cases hnot : (shouldNotify cfg details geometry.features).notify = true
          · by_cases hrec : 0 < (getRecipients cfg details.contractor).length
            · have hrw : runPass cfg oracles (order :: rest) seen trace =
                  runPass cfg oracles rest (seen ++ [order.id])
                    (trace ++ [MEvent.evalStarted order.id,
                      MEvent.notifyDetected order.id
                        (shouldNotify cfg details geometry.features).reason,
                      MEvent.dispatchFailed order.id typeErrorGetCustomMessage]) := by
                simp [runPass, hmem, hdet, hgeo, hnot, hrec, callGetCustomMessage,
                  getCustomMessageMethod]
              rw [hrw]
              refine ⟨fun e he => (ih _ _).1 e (List.mem_append_left _ he), fun hg => ?_⟩
              refine (ih _ _).2 (goodTrace_extend trace _ ?_ ?_ hg)
              · intro id
                simp
              · intro id r hm
                simp at hm
                rcases hm with ⟨hid, hr⟩
                subst hid
                simp
            · have hrw : runPass cfg oracles (order :: rest) seen trace =
                  runPass cfg oracles rest (seen ++ [order.id])
                    (trace ++ [MEvent.evalStarted order.id,
                               MEvent.noRecipients order.id]) := by
                simp [runPass, hmem, hdet, hgeo, hnot, hrec]
              rw [hrw]
              refine ⟨fun e he => (ih _ _).1 e (List.mem_append_left _ he), fun hg => ?_⟩
              refine (ih _ _).2 (goodTrace_extend trace _ ?_ ?_ hg)
              · intro id
                simp
              · intro id r hm
                simp at hm
          · have hrw : runPass cfg oracles (order :: rest) seen trace =
                runPass cfg oracles rest (seen ++ [order.id])
                  (trace ++ [MEvent.evalStarted order.id]) := by
              simp [runPass, hmem, hdet, hgeo, hnot]
            rw [hrw]
            refine ⟨fun e he => (ih _ _).1 e (List.mem_append_left _ he), fun hg => ?_⟩
            refine (ih _ _).2 (goodTrace_extend trace _ ?_ ?_ hg)
            · intro id
              simp
            · intro id r hm
              simp at hm

theorem checkForNewOrders_inv (cfg : NotifConfig) (oracles : MonitorOracles)
    (seen : List Nat) :
    PassInv seen [] (checkForNewOrders cfg oracles seen) := by
  unfold checkForNewOrders
  by_cases hen : cfg.enabled = false
  · rw [if_pos hen]
    exact PassInv_refl seen []
  · rw [if_neg hen]
    cases hfm : oracles.fieldMaps with
    | error e =>
      refine ⟨fun s h => h, ?_, ?_, ?_⟩
      · intro id _
        simp [countEval_cons, countEval_nil]
      · intro id
        simp [countEval_cons, countEval_nil]
      · intro id h
        simp [countEval_cons, countEval_nil] at h
    | ok fms =>
      exact runPass_inv cfg oracles fms seen []

theorem checkForNewOrders_good (cfg : NotifConfig) (oracles : MonitorOracles)
    (seen : List Nat) :
    goodTrace (checkForNewOrders cfg oracles seen).2 := by
  unfold checkForNewOrders
  by_cases hen : cfg.enabled = false
  · rw [if_pos hen]
    exact goodTrace_nil
  · rw [if_neg hen]
    cases hfm : oracles.fieldMaps with
    | error e =>
      constructor
      · intro id
        simp
      · intro id r hm
        simp at hm
    | ok fms =>
      exact (runPass_good cfg oracles fms seen []).2 goodTrace_nil

theorem runPasses_inv (passes : List (NotifConfig × MonitorOracles)) :
    ∀ seen : List Nat,
      (∀ s ∈ seen, s ∈ (runPasses passes seen).1) ∧
      (∀ id, countEval (runPasses passes seen).2 id ≤ if id ∈ seen then 0 else 1) ∧
      (∀ id, 0 < countEval (runPasses passes seen).2 id →
        id ∈ (runPasses passes seen).1) := by
  induction passes with
  | nil =>
    intro seen
    refine ⟨fun s h => h, ?_, ?_⟩
    · intro id
      show countEval [] id ≤ _
      rw [countEval_nil]
      exact Nat.zero_le _
    · intro id h
      rw [show (runPasses [] seen).2 = [] from rfl, countEval_nil] at h
      exact absurd h (lt_irrefl _)
  | cons p rest ih =>
    intro seen
    obtain ⟨hc1, hc2, hc3, hc4⟩ := checkForNewOrders_inv p.1 p.2 seen
    obtain ⟨hr1, hr2, hr3⟩ := ih (checkForNewOrders p.1 p.2 seen).1
    refine ⟨?_, ?_, ?_⟩
    · intro s hs
      show s ∈ (runPasses rest (checkForNewOrders p.1 p.2 seen).1).1
      exact hr1 s (hc1 s hs)
    · intro id
      show countEval ((checkForNewOrders p.1 p.2 seen).2 ++
          (runPasses rest (checkForNewOrders p.1 p.2 seen).1).2) id ≤ _
      rw [countEval_append]
      by_cases hid : id ∈ seen
      · rw [if_pos hid]
        have e1 : countEval (checkForNewOrders p.1 p.2 seen).2 id = 0 := by
          rw [hc2 id hid, countEval_nil]
        have e2 := hr2 id
        rw [if_pos (hc1 id hid)] at e2
        omega
      · rw [if_neg hid]
        have e3 := hc3 id
        rw [countEval_nil] at e3
        by_cases hz : countEval (checkForNewOrders p.1 p.2 seen).2 id = 0
        · have hb : (if id ∈ (checkForNewOrders p.1 p.2 seen).1 then 0 else 1) ≤ 1 := by
            by_cases h : id ∈ (checkForNewOrders p.1 p.2 seen).1 <;> simp [h]
          have e2 := le_trans (hr2 id) hb
          omega
        · have hpos : 0 < countEval (checkForNewOrders p.1 p.2 seen).2 id :=
            Nat.pos_of_ne_zero hz
          have hmem2 : id ∈ (checkForNewOrders p.1 p.2 seen).1 :=
            hc4 id (by rw [countEval_nil]; exact hpos)
          have e2 := hr2 id
          rw [if_pos hmem2] at e2
          omega
    · intro id h
      rw [show (runPasses (p :: rest) seen).2 =
          (checkForNewOrders p.1 p.2 seen).2 ++
            (runPasses rest (checkForNewOrders p.1 p.2 seen).1).2 from rfl,
        countEval_append] at h
      show id ∈ (runPasses rest (checkForNewOrders p.1 p.2 seen).1).1
      by_cases hz : countEval (checkForNewOrders p.1 p.2 seen).2 id = 0
      · rw [hz, Nat.zero_add] at h
        exact hr3 id h
      · have hmem2 : id ∈ (checkForNewOrders p.1 p.2 seen).1 :=
          hc4 id (by rw [countEval_nil]; exact Nat.pos_of_ne_zero hz)
        exact hr1 id hmem2

theorem runPasses_seen_no_eval (passes : List (NotifConfig × MonitorOracles)) :
    ∀ (seen : List Nat) (id : Nat), id ∈ seen →
      countEval (runPasses passes seen).2 id = 0 := by
  induction passes with
  | nil =>
    intro seen id _
    rw [show (runPasses [] seen).2 = [] from rfl, countEval_nil]
  | cons p rest ih =>
    intro seen id hid
    obtain ⟨hc1, hc2, _, _⟩ := checkForNewOrders_inv p.1 p.2 seen
    rw [show (runPasses (p :: rest) seen).2 =
        (checkForNewOrders p.1 p.2 seen).2 ++
          (runPasses rest (checkForNewOrders p.1 p.2 seen).1).2 from rfl,
      countEval_append, hc2 id hid, countEval_nil,
      ih (checkForNewOrders p.1 p.2 seen).1 id (hc1 id hid)]

/-! ### Claim theorems: Order Monitor -/

/-- **C2**: over any sequence of monitor check passes started from a fresh
seen set (the state after construction or `reset()`) with no intervening
reset, no job id is evaluated more than once — the count of evaluation
starts per id over the concatenated traces is at most 1 — and any id that
was evaluated is in the final seen set (added before its evaluation began,
and the set only grows), whatever each evaluation's outcome. -/
theorem monitor_at_most_once_evaluation :
    (∀ (passes : List (NotifConfig × MonitorOracles)) (id : Nat),
       countEval (runPasses passes []).2 id ≤ 1) ∧
    (∀ (passes : List (NotifConfig × MonitorOracles)) (id : Nat),
       0 < countEval (runPasses passes []).2 id → id ∈ (runPasses passes []).1) := by
  constructor
  · intro passes id
    have h := (runPasses_inv passes []).2.1 id
    simpa using h
  · intro passes id h
    exact (runPasses_inv passes []).2.2 id h

/-- Witness for C2: in a concrete single pass evaluating job 1, job 1 ends
up in the seen set. -/
theorem monitor_at_most_once_evaluation_witness :
    1 ∈ (runPasses [(⟨true, [], [], ⟨true, true, true, false⟩⟩,
      ⟨Except.ok [⟨1, "", "", "", 0, "", "", none, none, "", none, "", "", "", "",
          "", false, false⟩],
       fun _ => Except.ok {}, fun _ => Except.ok {},
       fun _ _ => Except.ok ()⟩)] []).1 :=
  monitor_at_most_once_evaluation.2
    [(⟨true, [], [], ⟨true, true, true, false⟩⟩,
      ⟨Except.ok [⟨1, "", "", "", 0, "", "", none, none, "", none, "", "", "", "",
          "", false, false⟩],
       fun _ => Except.ok {}, fun _ => Except.ok {},
       fun _ _ => Except.ok ()⟩)] 1 (by decide)

/-- **C9**: the `NotificationConfig` class defines no `getCustomMessage`
method, so whenever a check pass reaches the dispatch step (notify decision
with non-empty recipients) the call raises and is caught per-job as a
dispatch failure; consequently no pass ever emits an email-sent event. -/
theorem monitor_never_sends_email :
    getCustomMessageMethod = none ∧
    (∀ (cfg : NotifConfig) (oracles : MonitorOracles) (seen : List Nat) (id : Nat),
       MEvent.emailSent id ∉ (checkForNewOrders cfg oracles seen).2) ∧
    (∀ (cfg : NotifConfig) (oracles : MonitorOracles) (seen : List Nat)
       (id : Nat) (r : String),
       MEvent.notifyDetected id r ∈ (checkForNewOrders cfg oracles seen).2 →
       MEvent.dispatchFailed id typeErrorGetCustomMessage ∈
         (checkForNewOrders cfg oracles seen).2) := by
  refine ⟨rfl, ?_, ?_⟩
  · intro cfg oracles seen id
    exact (checkForNewOrders_good cfg oracles seen).1 id
  · intro cfg oracles seen id r
    exact (checkForNewOrders_good cfg oracles seen).2 id r

/-- Witness for C9: a concrete pass that reaches the dispatch step records
the TypeError as a per-job dispatch failure. -/
theorem monitor_never_sends_email_witness :
    MEvent.dispatchFailed 1 typeErrorGetCustomMessage ∈
      (checkForNewOrders ⟨true, ["a@x"], [], ⟨true, true, true, false⟩⟩
        ⟨Except.ok [⟨1, "", "", "", 0, "", "", none, none, "", none, "", "", "", "",
            "", false, false⟩],
         fun _ => Except.ok {}, fun _ => Except.ok ⟨[⟨some "outlines"⟩]⟩,
         fun _ _ => Except.ok ()⟩ []).2 :=
  monitor_never_sends_email.2.2 ⟨true, ["a@x"], [], ⟨true, true, true, false⟩⟩
    ⟨Except.ok [⟨1, "", "", "", 0, "", "", none, none, "", none, "", "", "", "",
        "", false, false⟩],
     fun _ => Except.ok {}, fun _ => Except.ok ⟨[⟨some "outlines"⟩]⟩,
     fun _ _ => Except.ok ()⟩ [] 1 "reference_field" (by decide)


theorem runPass_abort (cfg : NotifConfig) (oracles : MonitorOracles)
    (o : FieldMap) (rest : List FieldMap) (seen : List Nat) (trace : List MEvent)
    (e : String) (hmem : o.id ∉ seen)
    (hdet : oracles.getFieldMapDetails o.id = Except.error e) :
    runPass cfg oracles (o :: rest) seen trace =
      (seen ++ [o.id], trace ++ [MEvent.evalStarted o.id, MEvent.passError e]) := by
  simp [runPass, hmem, hdet]

theorem runPass_cons_ok (cfg : NotifConfig) (oracles : MonitorOracles)
    (o : FieldMap) (seen : List Nat) (trace : List MEvent) (details : OrderDetails)
    (hmem : o.id ∉ seen)
    (hdet : oracles.getFieldMapDetails o.id = Except.ok details) :
    ∃ Δ : List MEvent, ∀ X : List FieldMap,
      runPass cfg oracles (o :: X) seen trace =
        runPass cfg oracles X (seen ++ [o.id]) (trace ++ Δ) := by
  cases hgeo : oracles.downloadFieldMap o.id with
  | error ge =>
    exact ⟨[MEvent.evalStarted o.id, MEvent.geometrySkipped o.id],
      fun X => by simp [runPass, hmem, hdet, hgeo]⟩
  | ok geometry =>
    by_cases hnot : (shouldNotify cfg details geometry.features).notify = true
    · by_cases hrec : 0 < (getRecipients cfg details.contractor).length
      · exact ⟨[MEvent.evalStarted o.id,
          MEvent.notifyDetected o.id
            (shouldNotify cfg details geometry.features).reason,
          MEvent.dispatchFailed o.id typeErrorGetCustomMessage],
          fun X => by simp [runPass, hmem, hdet, hgeo, hnot, hrec,
            callGetCustomMessage, getCustomMessageMethod]⟩
      · exact ⟨[MEvent.evalStarted o.id, MEvent.noRecipients o.id],
          fun X => by simp [runPass, hmem, hdet, hgeo, hnot, hrec]⟩
    · exact ⟨[MEvent.evalStarted o.id],
        fun X => by simp [runPass, hmem, hdet, hgeo, hnot]⟩

theorem runPass_no_abort_append (cfg : NotifConfig) (oracles : MonitorOracles) :
    ∀ (pre suf : List FieldMap) (seen : List Nat) (trace : List MEvent),
      (∀ e, MEvent.passError e ∉ (runPass cfg oracles pre seen trace).2) →
      runPass cfg oracles (pre ++ suf) seen trace =
        runPass cfg oracles suf (runPass cfg oracles pre seen trace).1
          (runPass cfg oracles pre seen trace).2 := by
  intro pre
  induction pre with
  | nil =>
    intro suf seen trace _
    rw [List.nil_append, runPass_nil]
  | cons j pre' ih =>
    intro suf seen trace hna
    by_cases hmem : j.id ∈ seen
    · have hskip := runPass_cons_seen cfg oracles j pre' seen trace hmem
      rw [hskip] at hna
      rw [List.cons_append, runPass_cons_seen cfg oracles j (pre' ++ suf) seen trace hmem,
        hskip]
      exact ih suf seen trace hna
    · cases hdet : oracles.getFieldMapDetails j.id with
      | error e =>
        exfalso
        apply hna e
        rw [runPass_abort cfg oracles j pre' seen trace e hmem hdet]
        exact List.mem_append_right _ (by simp)
      | ok details =>
        obtain ⟨Δ, hΔ⟩ := runPass_cons_ok cfg oracles j seen trace details hmem hdet
        rw [hΔ pre'] at hna
        rw [List.cons_append, hΔ (pre' ++ suf), hΔ pre']
        exact ih suf _ _ hna

/-- **C10**: if `getFieldMapDetails` fails for a newly seen job anywhere in
a check pass — after an arbitrary earlier part of the fetched list was
processed normally (already-seen jobs skipped, unseen jobs evaluated, no
earlier abort) — the pass's loop aborts with the error caught only at pass
level: the pass output is the prefix's state extended by exactly the failed
job's seen-set entry, its evaluation start and the pass error, so no job
after it in the list is touched and no id other than the failed one gains
an evaluation beyond the prefix; and an id in the seen set is never
evaluated in any later sequence of passes without `reset()`. -/
theorem monitor_detailError_abortsPass :
    (∀ (cfg : NotifConfig) (oracles : MonitorOracles) (pre : List FieldMap)
       (o : FieldMap) (post : List FieldMap) (seen : List Nat) (e : String),
       cfg.enabled = true →
       oracles.fieldMaps = Except.ok (pre ++ o :: post) →
       (∀ e', MEvent.passError e' ∉ (runPass cfg oracles pre seen []).2) →
       o.id ∉ (runPass cfg oracles pre seen []).1 →
       oracles.getFieldMapDetails o.id = Except.error e →
       checkForNewOrders cfg oracles seen =
         ((runPass cfg oracles pre seen []).1 ++ [o.id],
          (runPass cfg oracles pre seen []).2 ++
            [MEvent.evalStarted o.id, MEvent.passError e]) ∧
       (∀ id, id ≠ o.id →
          countEval (checkForNewOrders cfg oracles seen).2 id =
            countEval (runPass cfg oracles pre seen []).2 id)) ∧
    (∀ (passes : List (NotifConfig × MonitorOracles)) (seen : List Nat) (id : Nat),
       id ∈ seen → countEval (runPasses passes seen).2 id = 0) := by
  constructor
  · intro cfg oracles pre o post seen e hen hfm hna hmem hdet
    have hen' : ¬ cfg.enabled = false := by simp [hen]
    have hpass : checkForNewOrders cfg oracles seen =
        ((runPass cfg oracles pre seen []).1 ++ [o.id],
         (runPass cfg oracles pre seen []).2 ++
           [MEvent.evalStarted o.id, MEvent.passError e]) := by
      unfold checkForNewOrders
      rw [if_neg hen', hfm]
      show runPass cfg oracles (pre ++ o :: post) seen [] = _
      rw [runPass_no_abort_append cfg oracles pre (o :: post) seen [] hna]
      exact runPass_abort cfg oracles o post _ _ e hmem hdet
    refine ⟨hpass, ?_⟩
    intro id hne
    rw [hpass]
    show countEval ((runPass cfg oracles pre seen []).2 ++
        [MEvent.evalStarted o.id, MEvent.passError e]) id = _
    rw [countEval_append]
    have hno : ¬ (MEvent.evalStarted o.id = MEvent.evalStarted id) := by
      intro hh
      injection hh with h
      exact hne h.symm
    have hz : countEval [MEvent.evalStarted o.id, MEvent.passError e] id = 0 := by
      simp [countEval_cons, countEval_nil, hno]
    rw [hz, Nat.add_zero]
  · exact fun passes => runPasses_seen_no_eval passes

/-- Witness for C10: in a pass whose list holds an already-seen job 5, a
successfully evaluated new job 1, the failing job 2 and an untouched job 3,
the pass aborts right after job 2: job 3 is never evaluated, job 2 joins
the seen set. -/
theorem monitor_detailError_abortsPass_witness :
    checkForNewOrders ⟨true, [], [], ⟨true, true, true, false⟩⟩
      ⟨Except.ok [⟨5, "", "", "", 0, "", "", none, none, "", none, "", "", "", "",
          "", false, false⟩,
        ⟨1, "", "", "", 0, "", "", none, none, "", none, "", "", "", "",
          "", false, false⟩,
        ⟨2, "", "", "", 0, "", "", none, none, "", none, "", "", "", "",
          "", false, false⟩,
        ⟨3, "", "", "", 0, "", "", none, none, "", none, "", "", "", "",
          "", false, false⟩],
       fun i => if i = 2 then Except.error "err" else Except.ok {},
       fun _ => Except.ok {}, fun _ _ => Except.ok ()⟩ [5] =
      ([5, 1, 2],
       [MEvent.evalStarted 1, MEvent.evalStarted 2, MEvent.passError "err"]) :=
  (monitor_detailError_abortsPass.1 ⟨true, [], [], ⟨true, true, true, false⟩⟩
    ⟨Except.ok [⟨5, "", "", "", 0, "", "", none, none, "", none, "", "", "", "",
        "", false, false⟩,
      ⟨1, "", "", "", 0, "", "", none, none, "", none, "", "", "", "",
        "", false, false⟩,
      ⟨2, "", "", "", 0, "", "", none, none, "", none, "", "", "", "",
        "", false, false⟩,
      ⟨3, "", "", "", 0, "", "", none, none, "", none, "", "", "", "",
        "", false, false⟩],
     fun i => if i = 2 then Except.error "err" else Except.ok {},
     fun _ => Except.ok {}, fun _ _ => Except.ok ()⟩
    [⟨5, "", "", "", 0, "", "", none, none, "", none, "", "", "", "",
        "", false, false⟩,
      ⟨1, "", "", "", 0, "", "", none, none, "", none, "", "", "", "",
        "", false, false⟩]
    ⟨2, "", "", "", 0, "", "", none, none, "", none, "", "", "", "", "", false, false⟩
    [⟨3, "", "", "", 0, "", "", none, none, "", none, "", "", "", "", "", false, false⟩]
    [5] "err" rfl rfl
    (fun e' h => by simp at h :
      ∀ e' : String, MEvent.passError e' ∉ ([MEvent.evalStarted 1] : List MEvent))
    (by decide) rfl).1
